import Mathlib

/-!
A verification development for the `go.uber.org/ratelimit` leaky-bucket
rate limiter.

Modelling conventions for the shallow embedding:

* `time.Time` instants and `time.Duration` values are modelled as `Int`
  nanosecond counts.  The zero value of `time.Time` (for which `IsZero`
  reports true) is modelled as the instant `0`.  `now.Sub(last)` is plain
  integer subtraction and `now.Add(d)` is integer addition; the claims
  settled here live far from the `int64` overflow boundary, so durations
  are modelled as unbounded integers.
* Go integer division on `time.Duration` truncates toward zero, which is
  `Int.tdiv`.  Dividing by zero panics in Go, so a constructor that
  divides by the caller-supplied rate is modelled as returning `none`
  exactly when the rate is zero.
* The `Clock` capability is split into data the code stores (a `ClockRef`
  identifying which clock the limiter holds) and the readings the
  environment supplies (`now` arguments of the transition functions).
  `Sleep` is recorded as the slept duration in the transition result.
* The compare-and-swap loop of the atomic limiter is modelled over an
  explicit list of attempts: each attempt is the pair (clock reading,
  state snapshot loaded from the shared pointer); the environment decides
  which attempt's CAS succeeds.  All attempts before the last fail, the
  last one succeeds.
-/

/-- Which clock implementation a limiter holds: the real wall clock
(`clock.New()`) or a caller-supplied one such as a mock. -/
inductive ClockRef
  | real
  | custom (id : Nat)
deriving DecidableEq

/-- `config` from the options file (part_006): the result of merging
construction options.  Field-for-field image of the Go struct. -/
structure config where
  clock : ClockRef
  slack : Int
  per : Int
deriving DecidableEq

/-- `(c *config) init()` from part_006: the defaults — real clock,
slack 10, one-second window (in nanoseconds). -/
def configInit : config :=
  { clock := ClockRef.real, slack := 10, per := 1000000000 }

/-- `Option` from option.go (named `Opt` here because `Option` is taken by
Lean).  Each constructor corresponds to one of the option values the
source builds: `clockOption`, `slackOption`, `perOption`. -/
inductive Opt
  | clockOption (c : ClockRef)
  | slackOption (n : Int)
  | perOption (d : Int)
deriving DecidableEq

/-- `apply` of the three option types in option.go: each overwrites one
field of the configuration. -/
def Opt.apply (o : Opt) (c : config) : config :=
  match o with
  | Opt.clockOption k => { c with clock := k }
  | Opt.slackOption n => { c with slack := n }
  | Opt.perOption d => { c with per := d }

/-- `WithClock` from option.go. -/
def WithClock (c : ClockRef) : Opt := Opt.clockOption c

/-- `WithoutSlack` from option.go: `slackOption(0)`. -/
def WithoutSlack : Opt := Opt.slackOption 0

/-- `WithSlack` from option.go: `slackOption(slack)`. -/
def WithSlack (n : Int) : Opt := Opt.slackOption n

/-- `Per` from option.go: `perOption(per)`. -/
def Per (d : Int) : Opt := Opt.perOption d

/-- `buildConfig` from part_006: start from the defaults and apply the
options in order. -/
def buildConfig (opts : List Opt) : config :=
  opts.foldl (fun c o => o.apply c) configInit

/-! ### Lock-based strategy (part_000) -/

/-- `mutexLimiter` from part_000.  The mutex itself needs no model: the
whole `Take` body runs under it, so sequential transition functions
capture the committed behaviour exactly. -/
structure mutexLimiter where
  last : Int
  sleepFor : Int
  perRequest : Int
  maxSlack : Int
  clock : ClockRef
deriving DecidableEq

/-- `newMutexBased` from part_000.  Note what the source does: it builds
the limiter directly from `rate`, hard-coding a one-second window and the
slack factor 10, never touching `opts` or `buildConfig`; the clock is
always `clock.New()` because the nil check always fires.  `none` models
the Go division-by-zero panic at rate 0. -/
def newMutexBased (rate : Int) (opts : List Opt) : Option mutexLimiter :=
  if rate = 0 then none
  else
    some { last := 0
           sleepFor := 0
           perRequest := Int.tdiv 1000000000 rate
           maxSlack := Int.tdiv (-10 * 1000000000) rate
           clock := ClockRef.real }

/-- Result of one `Take` call on the lock-based limiter: the state left
behind, the duration passed to `clock.Sleep`, and the returned instant. -/
structure MTakeResult where
  state : mutexLimiter
  slept : Int
  ret : Int
deriving DecidableEq

/-- `(t *mutexLimiter) Take()` from part_000, as a function of the clock
reading `now`.  First call: record `now` and return it.  Otherwise add
`perRequest - (now - last)` to the accumulated `sleepFor`, clamp it from
below at `maxSlack`, and either sleep it off (positive case: `last`
becomes `now + sleepFor`, `sleepFor` resets to zero) or carry it
(non-positive case: `last` becomes `now`). -/
def mutexLimiter.Take (t : mutexLimiter) (now : Int) : MTakeResult :=
  if t.last = 0 then
    { state := { t with last := now }, slept := 0, ret := now }
  else
    let s1 := t.sleepFor + t.perRequest - (now - t.last)
    let s2 := if s1 < t.maxSlack then t.maxSlack else s1
    if s2 > 0 then
      { state := { t with last := now + s2, sleepFor := 0 }
        slept := s2
        ret := now + s2 }
    else
      { state := { t with last := now, sleepFor := s2 }
        slept := 0
        ret := now }

/-- A sequence of sequential `Take` calls on the lock-based limiter, one
per clock reading in the list. -/
def mutexRun (t : mutexLimiter) : List Int → List MTakeResult
  | [] => []
  | now :: rest =>
      mutexLimiter.Take t now :: mutexRun (mutexLimiter.Take t now).state rest

/-- Validity of a reading trace for the lock-based limiter, per the clock
assumptions of the monotonicity claim: each reading taken after a call
that slept `d` is at least the previous reading plus `d` (and hence
readings are non-decreasing, as sleeps are non-negative). -/
def mutexValidB (t : mutexLimiter) : List Int → Bool
  | [] => true
  | [_] => true
  | n1 :: n2 :: rest =>
      decide (n1 + (mutexLimiter.Take t n1).slept ≤ n2) &&
        mutexValidB (mutexLimiter.Take t n1).state (n2 :: rest)

/-- Sequential `Take` calls where each caller is serialized behind the
lock: a call issued at `issue` cannot read the clock before the previous
call finished (at its returned instant, because the sleep happens inside
the critical section), so its reading is `max issue t.last`. -/
def mutexSerialRun (t : mutexLimiter) : List Int → List MTakeResult
  | [] => []
  | issue :: rest =>
      let r := mutexLimiter.Take t (max issue t.last)
      r :: mutexSerialRun r.state rest

/-- The pacing state left behind by a sequence of sequential `Take`
calls on the lock-based limiter. -/
def mutexRunState (t : mutexLimiter) (nows : List Int) : mutexLimiter :=
  nows.foldl (fun s now => (mutexLimiter.Take s now).state) t

/-! ### Atomic-snapshot strategy (part_009) -/

/-- `state` from part_009: the immutable snapshot swapped through the
shared atomic pointer. -/
structure state where
  last : Int
  sleepFor : Int
deriving DecidableEq

/-- `atomicLimiter` from part_009: the per-instance constants (the shared
state pointer and the padding array carry no algorithmic content and are
modelled by the attempt lists below). -/
structure atomicLimiter where
  perRequest : Int
  maxSlack : Int
  clock : ClockRef
deriving DecidableEq

/-- `(t *atomicLimiter) init(rate, opts...)` from part_009 together with
`newAtomicBased`: build the merged configuration and derive
`perRequest = config.per / rate` and
`maxSlack = -1 * config.slack * perRequest`.  `none` models the Go
division-by-zero panic at rate 0. -/
def newAtomicBased (rate : Int) (opts : List Opt) : Option atomicLimiter :=
  if rate = 0 then none
  else
    let c := buildConfig opts
    let perRequest := Int.tdiv c.per rate
    some { perRequest := perRequest
           maxSlack := -1 * c.slack * perRequest
           clock := c.clock }

/-- One iteration of the CAS loop body of `(t *atomicLimiter) Take()`
from part_009, given the clock reading `now` and the snapshot `old`
loaded from the shared pointer (a nil pointer loads as the zero-valued
`state`).  Returns the `newState` this iteration would try to commit and
`some interval` exactly when the iteration executed the
`newState.sleepFor > 0` branch (which is the only assignment to the
loop-carried `interval` variable). -/
def atomicAttempt (t : atomicLimiter) (now : Int) (old : state) : state × Option Int :=
  if old.last = 0 then
    ({ last := now, sleepFor := old.sleepFor }, none)
  else
    let s1 := old.sleepFor + t.perRequest - (now - old.last)
    let s2 := if s1 < t.maxSlack then t.maxSlack else s1
    if s2 > 0 then
      ({ last := now + s2, sleepFor := 0 }, some s2)
    else
      ({ last := now, sleepFor := s2 }, none)

/-- The value of the `interval` variable after a list of loop iterations,
starting from `interval = 0` (its zero value at the top of `Take`): each
iteration that runs the positive branch overwrites it, the others leave
it alone — faithful to part_009, where `interval` is declared outside the
loop and never reset. -/
def atomicIntervalAfter (t : atomicLimiter) (attempts : List (Int × state)) : Int :=
  attempts.foldl
    (fun acc p =>
      match (atomicAttempt t p.1 p.2).2 with
      | some i => i
      | none => acc)
    0

/-- Outcome of one whole `Take()` call on the atomic limiter: the
committed snapshot, the duration passed to `clock.Sleep` after the loop,
and the returned instant. -/
structure ATakeOutcome where
  committed : state
  slept : Int
  ret : Int
deriving DecidableEq

/-- `(t *atomicLimiter) Take()` from part_009 as a whole: the CAS of
every attempt in `failed` is lost to a concurrent caller, the CAS of
`final` succeeds.  The committed snapshot is the final attempt's
`newState`; the call then sleeps whatever `interval` holds after all the
iterations and returns the committed `newState.last`. -/
def atomicTakeRun (t : atomicLimiter) (failed : List (Int × state))
    (final : Int × state) : ATakeOutcome :=
  { committed := (atomicAttempt t final.1 final.2).1
    slept := atomicIntervalAfter t (failed ++ [final])
    ret := (atomicAttempt t final.1 final.2).1.last }

/-- An uncontended `Take()` on the atomic limiter: the single attempt
wins its CAS, so the call sleeps the attempt's own interval (zero when
the positive branch did not run) and returns the committed instant. -/
def atomicSeqTake (t : atomicLimiter) (s : state) (now : Int) : state × Int :=
  let r := atomicAttempt t now s
  (r.1, match r.2 with | some i => i | none => 0)

/-- A sequence of sequential uncontended `Take` calls on the atomic
limiter, one per clock reading. -/
def atomicSeqRun (t : atomicLimiter) (s : state) : List Int → List (state × Int)
  | [] => []
  | now :: rest =>
      atomicSeqTake t s now :: atomicSeqRun t (atomicSeqTake t s now).1 rest

/-- Validity of a reading trace for sequential calls on the atomic
limiter: same clock assumptions as for the lock-based one. -/
def atomicValidB (t : atomicLimiter) (s : state) : List Int → Bool
  | [] => true
  | [_] => true
  | n1 :: n2 :: rest =>
      decide (n1 + (atomicSeqTake t s n1).2 ≤ n2) &&
        atomicValidB t (atomicSeqTake t s n1).1 (n2 :: rest)

/-! ### Atomic-packed strategy (spec section 4.6) -/

/-- Modelled from the spec: the Atomic-Packed strategy selected by the
default constructor `New` via `newAtomicInt64Based` — its implementing
file is not under src/; only `New` in the README excerpt and `runTest`
in ratelimit_test.go refer to it.  Spec section 4.6 mandates a contract
equivalent to the Atomic-Snapshot strategy with `{lastInstant, debt}`
encoded in one fixed-width atomic word; following its monotonic-counter
hint the word holds `lastInstant + debt` in nanoseconds, with the zero
word reserved to mean uninitialized (the documented encoding-precision
caveat: an instant whose encoding is exactly 0 aliases the uninitialized
state, which is why ratelimit_test.go sets the mock clock to a non-zero
start).  One CAS attempt maps the word `tw` to the new word and yields
the sleep performed after a successful commit and the returned instant. -/
def int64Attempt (perRequest maxSlack : Int) (now : Int) (tw : Int) :
    Int × Int × Int :=
  if tw = 0 then (now, 0, now)
  else
    let d := max (tw + perRequest - now) maxSlack
    if 0 < d then (now + d, d, now + d) else (now + d, 0, now)

/-- The packed word that encodes an atomic-snapshot `state`:
`lastInstant + debt`. -/
def encodeState (s : state) : Int := s.last + s.sleepFor

/-! ### Null strategy (option.go) -/

/-- `(unlimited) Take()` from option.go: `return time.Now()`.  The
ambient real-clock reading is the explicit argument; the call performs no
sleep, reads no limiter state and consults no configured clock.  The
result pairs the returned instant with the slept duration. -/
def unlimitedTake (realNow : Int) : Int × Int := (realNow, 0)

/-- A run of `NewUnlimited().Take()` inside an environment that also
carries a merged configuration and the reading its configured clock
would supply: the source ignores both, reading `time.Now()` directly. -/
def unlimitedTakeIn (cfg : config) (cfgNow : Int) (realNow : Int) : Int × Int :=
  unlimitedTake realNow

/-! ### Step lemmas for the pacing transition -/

/-- The lock-based `Take` returns exactly the committed `last`. -/
theorem mutexTake_ret_eq (t : mutexLimiter) (now : Int) :
    (mutexLimiter.Take t now).ret = (mutexLimiter.Take t now).state.last := by
  simp only [mutexLimiter.Take]
  split
  · rfl
  · split <;> split <;> rfl

/-- The committed `last` of a lock-based `Take` is the reading plus the
slept duration, in every branch. -/
theorem mutexTake_last_eq (t : mutexLimiter) (now : Int) :
    (mutexLimiter.Take t now).state.last = now + (mutexLimiter.Take t now).slept := by
  simp only [mutexLimiter.Take]
  split
  · simp
  · split <;> split <;> simp

/-- A lock-based `Take` never sleeps a negative duration. -/
theorem mutexTake_slept_nonneg (t : mutexLimiter) (now : Int) :
    0 ≤ (mutexLimiter.Take t now).slept := by
  simp only [mutexLimiter.Take]
  split
  · simp
  · split <;> split <;> (dsimp only) <;> omega

/-- The committed state, sleep and return of an uncontended atomic
`Take` coincide with those of a lock-based `Take` run from the same
pacing state with the same constants: the two strategies share one
transition. -/
theorem atomicSeqTake_eq_mutex (t : atomicLimiter) (s : state) (now : Int) :
    atomicSeqTake t s now =
      (({ last := (mutexLimiter.Take
              { last := s.last, sleepFor := s.sleepFor, perRequest := t.perRequest,
                maxSlack := t.maxSlack, clock := t.clock } now).state.last,
          sleepFor := (mutexLimiter.Take
              { last := s.last, sleepFor := s.sleepFor, perRequest := t.perRequest,
                maxSlack := t.maxSlack, clock := t.clock } now).state.sleepFor } : state),
        (mutexLimiter.Take
            { last := s.last, sleepFor := s.sleepFor, perRequest := t.perRequest,
              maxSlack := t.maxSlack, clock := t.clock } now).slept) := by
  simp only [atomicSeqTake, atomicAttempt, mutexLimiter.Take]
  split
  · rfl
  · split <;> split <;> rfl

/-- An uncontended atomic `Take` commits `last` equal to the reading plus
the slept duration, in every branch. -/
theorem atomicSeqTake_last_eq (t : atomicLimiter) (s : state) (now : Int) :
    (atomicSeqTake t s now).1.last = now + (atomicSeqTake t s now).2 := by
  rw [atomicSeqTake_eq_mutex]
  exact mutexTake_last_eq _ now

/-- An uncontended atomic `Take` never sleeps a negative duration. -/
theorem atomicSeqTake_slept_nonneg (t : atomicLimiter) (s : state) (now : Int) :
    0 ≤ (atomicSeqTake t s now).2 := by
  rw [atomicSeqTake_eq_mutex]
  exact mutexTake_slept_nonneg _ now

/-! ### Claim C5: the first call is free -/

/-- C5: on a freshly constructed limiter (zero-valued pacing state), the
first `Take` performs no delay, commits lastInstant = now with debt 0,
and returns now — whatever the reading `now` is (so however much time
elapsed since construction), for the lock-based, atomic-snapshot and
packed strategies alike. -/
theorem C5_first_call_free (p ms : Int) (ck : ClockRef) (now : Int) :
    (mutexLimiter.Take
        { last := 0, sleepFor := 0, perRequest := p, maxSlack := ms, clock := ck } now
      = { state := { last := now, sleepFor := 0, perRequest := p, maxSlack := ms, clock := ck },
          slept := 0, ret := now })
    ∧ (atomicSeqTake { perRequest := p, maxSlack := ms, clock := ck }
        { last := 0, sleepFor := 0 } now = ({ last := now, sleepFor := 0 }, 0))
    ∧ (atomicTakeRun { perRequest := p, maxSlack := ms, clock := ck } []
        (now, { last := 0, sleepFor := 0 })
      = { committed := { last := now, sleepFor := 0 }, slept := 0, ret := now })
    ∧ int64Attempt p ms now 0 = (now, 0, now) := by
  refine ⟨?_, ?_, ?_, ?_⟩ <;>
    simp [mutexLimiter.Take, atomicSeqTake, atomicAttempt, atomicTakeRun,
      atomicIntervalAfter, int64Attempt]

/-! ### Claim C10: the unlimited limiter ignores configuration -/

/-- C10: `NewUnlimited().Take` returns the ambient real-clock reading
with no sleep, and its outcome is identical across any two environments
that differ in the merged configuration or in what a configured clock
would read — so a supplied mock clock cannot drive it. -/
theorem C10_unlimited_ignores_config (c1 c2 : config) (n1 n2 realNow : Int) :
    unlimitedTakeIn c1 n1 realNow = (realNow, 0)
    ∧ unlimitedTakeIn c1 n1 realNow = unlimitedTakeIn c2 n2 realNow
    ∧ (unlimitedTakeIn c1 n1 realNow).2 = 0 :=
  ⟨rfl, rfl, rfl⟩

/-! ### Claim C1: the non-first-call pacing transition -/

/-- C1: on any `Take` that is not the first (stored lastInstant is not
the zero timestamp), the new debt is the old debt plus the per-request
interval minus the observed gap, clamped from below at maxSlack; and
whenever that clamped debt is positive the call sleeps exactly that
amount, commits lastInstant = now + debt with debt reset to zero, and
returns the committed lastInstant — for the lock-based strategy and for
the atomic-snapshot strategy (whatever failed CAS attempts preceded the
committing one). -/
theorem C1_take_transition (p ms : Int) (ck : ClockRef) (old : state) (now : Int)
    (failed : List (Int × state)) (hlast : old.last ≠ 0) :
    (mutexLimiter.Take
        { last := old.last, sleepFor := old.sleepFor, perRequest := p,
          maxSlack := ms, clock := ck } now).state.sleepFor
      + (mutexLimiter.Take
        { last := old.last, sleepFor := old.sleepFor, perRequest := p,
          maxSlack := ms, clock := ck } now).slept
      = max (old.sleepFor + p - (now - old.last)) ms
    ∧ (atomicSeqTake { perRequest := p, maxSlack := ms, clock := ck } old now).1.sleepFor
        + (atomicSeqTake { perRequest := p, maxSlack := ms, clock := ck } old now).2
      = max (old.sleepFor + p - (now - old.last)) ms
    ∧ (0 < max (old.sleepFor + p - (now - old.last)) ms →
        (mutexLimiter.Take
            { last := old.last, sleepFor := old.sleepFor, perRequest := p,
              maxSlack := ms, clock := ck } now
          = { state := { last := now + max (old.sleepFor + p - (now - old.last)) ms,
                         sleepFor := 0, perRequest := p, maxSlack := ms, clock := ck },
              slept := max (old.sleepFor + p - (now - old.last)) ms,
              ret := now + max (old.sleepFor + p - (now - old.last)) ms })
        ∧ atomicTakeRun { perRequest := p, maxSlack := ms, clock := ck } failed (now, old)
          = { committed := { last := now + max (old.sleepFor + p - (now - old.last)) ms,
                             sleepFor := 0 },
              slept := max (old.sleepFor + p - (now - old.last)) ms,
              ret := now + max (old.sleepFor + p - (now - old.last)) ms }) := by
  have hmax : (if old.sleepFor + p - (now - old.last) < ms then ms
      else old.sleepFor + p - (now - old.last))
      = max (old.sleepFor + p - (now - old.last)) ms := by
    split <;> omega
  refine ⟨?_, ?_, ?_⟩
  · simp only [mutexLimiter.Take]
    rw [if_neg hlast, hmax]
    split <;> (dsimp only) <;> omega
  · simp only [atomicSeqTake, atomicAttempt]
    rw [if_neg hlast, hmax]
    split <;> (dsimp only) <;> omega
  · intro hpos
    constructor
    · simp only [mutexLimiter.Take]
      rw [if_neg hlast, hmax, if_pos hpos]
    · simp only [atomicTakeRun, atomicIntervalAfter, List.foldl_append, List.foldl_cons,
        List.foldl_nil, atomicAttempt]
      rw [if_neg hlast, hmax, if_pos hpos]

/-- Witness for C1 at a concrete input: perRequest 10, maxSlack -100,
previous state {last 50, debt 0}, reading 55, no failed attempts; the
clamped debt is 5 and the call sleeps 5 committing lastInstant 60. -/
theorem C1_take_transition_witness :
    (mutexLimiter.Take
        { last := 50, sleepFor := 0, perRequest := 10,
          maxSlack := -100, clock := ClockRef.real } 55).state.sleepFor
      + (mutexLimiter.Take
        { last := 50, sleepFor := 0, perRequest := 10,
          maxSlack := -100, clock := ClockRef.real } 55).slept
      = max (0 + 10 - (55 - 50)) (-100)
    ∧ (atomicSeqTake { perRequest := 10, maxSlack := -100, clock := ClockRef.real }
          { last := 50, sleepFor := 0 } 55).1.sleepFor
        + (atomicSeqTake { perRequest := 10, maxSlack := -100, clock := ClockRef.real }
          { last := 50, sleepFor := 0 } 55).2
      = max (0 + 10 - (55 - 50)) (-100)
    ∧ (0 < max ((0 : Int) + 10 - (55 - 50)) (-100) →
        (mutexLimiter.Take
            { last := 50, sleepFor := 0, perRequest := 10,
              maxSlack := -100, clock := ClockRef.real } 55
          = { state := { last := 55 + max (0 + 10 - (55 - 50)) (-100),
                         sleepFor := 0, perRequest := 10, maxSlack := -100,
                         clock := ClockRef.real },
              slept := max (0 + 10 - (55 - 50)) (-100),
              ret := 55 + max (0 + 10 - (55 - 50)) (-100) })
        ∧ atomicTakeRun { perRequest := 10, maxSlack := -100, clock := ClockRef.real } []
            (55, { last := 50, sleepFor := 0 })
          = { committed := { last := 55 + max (0 + 10 - (55 - 50)) (-100), sleepFor := 0 },
              slept := max (0 + 10 - (55 - 50)) (-100),
              ret := 55 + max (0 + 10 - (55 - 50)) (-100) }) :=
  C1_take_transition 10 (-100) ClockRef.real { last := 50, sleepFor := 0 } 55 []
    (by decide)

/-! ### Claim C2: the sleep after a contended atomic commit -/

/-- C2 evaluation at the failing input: with perRequest one second and
maxSlack minus ten seconds, an attempt at now = 10s against snapshot
{last 10s, debt -0.5s} computes a positive 0.5s interval and loses its
CAS; the retry at now = 13s against the winning caller's snapshot
{last 10.5s, debt 0} commits a non-positive debt of -1.5s — yet the call
sleeps the stale 0.5s interval recorded by the failed attempt, because
part_009 never resets `interval` across retries.  The claim (and spec
sections 4.3 step 6 and 4.5) requires a zero sleep here. -/
theorem C2_stale_interval_evaluation :
    atomicTakeRun
        { perRequest := 1000000000, maxSlack := -10000000000, clock := ClockRef.real }
        [(10000000000, { last := 10000000000, sleepFor := -500000000 })]
        (13000000000, { last := 10500000000, sleepFor := 0 })
      = { committed := { last := 13000000000, sleepFor := -1500000000 },
          slept := 500000000, ret := 13000000000 }
    ∧ (-1500000000 : Int) ≤ 0
    ∧ (500000000 : Int) ≠ 0 :=
  ⟨rfl, by decide, by decide⟩

/-! ### Claim C6: configuration merging and the constructors -/

/-- C6 evaluation at the failing input: `buildConfig` does apply the
supplied options as overrides onto the defaults (here: custom clock,
slack 0, one-minute window) and `newAtomicBased` honors the result —
but `newMutexBased` from part_000 returns the very same limiter with or
without the options: real clock, one-second window and slack factor 10
are hard-coded, so the configured clock, slackUnits and window take no
effect in the lock-based limiter it builds. -/
theorem C6_mutex_constructor_ignores_options :
    newMutexBased 100 [WithClock (ClockRef.custom 1), WithoutSlack, Per 60000000000]
      = newMutexBased 100 []
    ∧ newMutexBased 100 []
      = some { last := 0, sleepFor := 0, perRequest := 10000000,
               maxSlack := -100000000, clock := ClockRef.real }
    ∧ buildConfig [WithClock (ClockRef.custom 1), WithoutSlack, Per 60000000000]
      = { clock := ClockRef.custom 1, slack := 0, per := 60000000000 }
    ∧ newAtomicBased 100 [WithClock (ClockRef.custom 1), WithoutSlack, Per 60000000000]
      = some { perRequest := 600000000, maxSlack := 0, clock := ClockRef.custom 1 } :=
  ⟨rfl, rfl, rfl, rfl⟩

/-! ### Claim C3: construction-time validation -/

/-- C3 counterexample: at rate -1 (which is ≤ 0) construction does not
fail: `newAtomicBased` happily returns a limiter, and its per-request
interval is the degenerate value of minus one second. -/
theorem C3_counterexample_negative_rate_accepted :
    (newAtomicBased (-1) []).isSome = true
    ∧ newAtomicBased (-1) []
      = some { perRequest := -1000000000, maxSlack := 10000000000,
               clock := ClockRef.real } :=
  ⟨rfl, rfl⟩

/-- C3 amended: construction performs no validation at all.  Only rate 0
aborts — as a division-by-zero panic, not a returned error — while every
negative rate, and every non-positive supplied window, is accepted
silently and produces a degenerate non-positive per-request interval. -/
theorem C3_amended_no_validation :
    (∀ opts, newAtomicBased 0 opts = none)
    ∧ (∀ rate per, rate < 0 → 0 ≤ per →
        ∃ l, newAtomicBased rate [Per per] = some l ∧ l.perRequest ≤ 0)
    ∧ (∀ rate per, 0 < rate → per ≤ 0 →
        ∃ l, newAtomicBased rate [Per per] = some l ∧ l.perRequest ≤ 0)
    ∧ (∀ opts, newMutexBased 0 opts = none) := by
  refine ⟨?_, ?_, ?_, ?_⟩
  · intro opts; simp [newAtomicBased]
  · intro rate per h1 h2
    refine ⟨{ perRequest := Int.tdiv per rate, maxSlack := -1 * 10 * Int.tdiv per rate,
              clock := ClockRef.real }, ?_, ?_⟩
    · simp [newAtomicBased, buildConfig, Per, Opt.apply, configInit,
        show ¬rate = 0 by omega]
    · exact Int.tdiv_nonpos h2 (by omega)
  · intro rate per h1 h2
    refine ⟨{ perRequest := Int.tdiv per rate, maxSlack := -1 * 10 * Int.tdiv per rate,
              clock := ClockRef.real }, ?_, ?_⟩
    · simp [newAtomicBased, buildConfig, Per, Opt.apply, configInit,
        show ¬rate = 0 by omega]
    · show Int.tdiv per rate ≤ 0
      have h4 := Int.tdiv_nonneg (show (0 : Int) ≤ -per by omega) (Int.le_of_lt h1)
      rw [Int.neg_tdiv] at h4
      omega
  · intro opts; simp [newMutexBased]

/-- Witness for C3 amended at concrete inputs: rate 0 panics, rate -1
with a one-second window and rate 5 with window -2ns both construct
silently with a non-positive interval. -/
theorem C3_amended_no_validation_witness :
    newAtomicBased 0 [] = none
    ∧ (∃ l, newAtomicBased (-1) [Per 1000000000] = some l ∧ l.perRequest ≤ 0)
    ∧ (∃ l, newAtomicBased 5 [Per (-2)] = some l ∧ l.perRequest ≤ 0)
    ∧ newMutexBased 0 [] = none :=
  ⟨C3_amended_no_validation.1 [],
   C3_amended_no_validation.2.1 (-1) 1000000000 (by decide) (by decide),
   C3_amended_no_validation.2.2.1 5 (-2) (by decide) (by decide),
   C3_amended_no_validation.2.2.2 []⟩

/-! ### Claim C9: negative slack -/

/-- C9: `WithSlack` records any integer with no validation; with a
negative slack n and a positive per-request interval p the derived
maxSlack = -1 * n * p is positive, so on every Take past the first the
clamp raises the debt to at least maxSlack and the call therefore sleeps
at least maxSlack, however slowly callers arrive. -/
theorem C9_negative_slack_forces_sleep (n p : Int) (ck : ClockRef)
    (hn : n < 0) (hp : 0 < p) :
    (buildConfig [WithSlack n]).slack = n
    ∧ 0 < -1 * n * p
    ∧ (∀ now : Int, ∀ old : state, old.last ≠ 0 →
        -1 * n * p ≤
          (atomicSeqTake { perRequest := p, maxSlack := -1 * n * p, clock := ck } old now).2) := by
  have hms : 0 < -1 * n * p := by
    rw [neg_one_mul]
    exact mul_pos (by omega) hp
  refine ⟨rfl, hms, ?_⟩
  intro now old h
  rw [atomicSeqTake_eq_mutex]
  simp only [mutexLimiter.Take]
  rw [if_neg h]
  have hs2 : -1 * n * p ≤
      (if old.sleepFor + p - (now - old.last) < -1 * n * p then -1 * n * p
       else old.sleepFor + p - (now - old.last)) := by
    split <;> omega
  rw [if_pos (lt_of_lt_of_le hms hs2)]
  exact hs2

/-- Witness for C9 at slack -2, per-request interval 10: maxSlack is 20
and a Take arriving 993 intervals late still sleeps at least 20. -/
theorem C9_negative_slack_forces_sleep_witness :
    (buildConfig [WithSlack (-2)]).slack = -2
    ∧ 0 < -1 * (-2) * 10
    ∧ -1 * (-2) * 10 ≤
        (atomicSeqTake ⟨10, -1 * (-2) * 10, ClockRef.real⟩ ⟨7, 0⟩ 10000).2 :=
  ⟨(C9_negative_slack_forces_sleep (-2) 10 ClockRef.real (by decide) (by decide)).1,
   (C9_negative_slack_forces_sleep (-2) 10 ClockRef.real (by decide) (by decide)).2.1,
   (C9_negative_slack_forces_sleep (-2) 10 ClockRef.real (by decide) (by decide)).2.2
     10000 ⟨7, 0⟩ (by decide)⟩

/-! ### Claim C4: the packed strategy refines the snapshot strategy -/

/-- C4: one CAS attempt of the packed strategy (modelled from spec
section 4.6, the implementation being absent from src/), run on the
packed encoding of a snapshot state, commits exactly the encoding of
the state the snapshot attempt commits, sleeps after its commit exactly
what an uncontended snapshot Take sleeps, and returns the same instant —
given the documented encoding-precision caveat that only the
uninitialized state encodes to the zero word. -/
theorem C4_packed_equiv_snapshot (p ms now : Int) (ck : ClockRef) (s : state)
    (hzero : s.last = 0 ↔ encodeState s = 0) :
    int64Attempt p ms now (encodeState s)
      = (encodeState (atomicSeqTake { perRequest := p, maxSlack := ms, clock := ck } s now).1,
         (atomicSeqTake { perRequest := p, maxSlack := ms, clock := ck } s now).2,
         (atomicSeqTake { perRequest := p, maxSlack := ms, clock := ck } s now).1.last) := by
  by_cases h : s.last = 0
  · have h0 : encodeState s = 0 := hzero.mp h
    have hsf : s.sleepFor = 0 := by
      simp only [encodeState, h, zero_add] at h0
      exact h0
    simp [int64Attempt, atomicSeqTake, atomicAttempt, h, h0, hsf, encodeState]
  · have h0 : encodeState s ≠ 0 := fun hh => h (hzero.mpr hh)
    simp only [int64Attempt, atomicSeqTake, atomicAttempt]
    rw [if_neg h0, if_neg h]
    have hmax : (if s.sleepFor + p - (now - s.last) < ms then ms
        else s.sleepFor + p - (now - s.last)) = max (encodeState s + p - now) ms := by
      simp only [encodeState]
      split <;> omega
    rw [hmax]
    split <;> simp [encodeState, Prod.ext_iff]

/-- Witness for C4 at perRequest 10, maxSlack -100, reading 60, snapshot
state {last 50, debt -3} (packed word 47). -/
theorem C4_packed_equiv_snapshot_witness :
    int64Attempt 10 (-100) 60 (encodeState { last := 50, sleepFor := -3 })
      = (encodeState (atomicSeqTake
            { perRequest := 10, maxSlack := -100, clock := ClockRef.real }
            { last := 50, sleepFor := -3 } 60).1,
         (atomicSeqTake { perRequest := 10, maxSlack := -100, clock := ClockRef.real }
            { last := 50, sleepFor := -3 } 60).2,
         (atomicSeqTake { perRequest := 10, maxSlack := -100, clock := ClockRef.real }
            { last := 50, sleepFor := -3 } 60).1.last) :=
  C4_packed_equiv_snapshot 10 (-100) 60 ClockRef.real { last := 50, sleepFor := -3 }
    (by constructor <;> (intro hh; simp [encodeState] at hh))

/-! ### Claim C7: monotonicity of returned timestamps -/

/-- Along any reading trace satisfying the clock assumptions, the
instants returned by sequential lock-based Takes are pairwise
non-decreasing. -/
theorem mutexRun_chain (nows : List Int) : ∀ (t : mutexLimiter),
    mutexValidB t nows = true →
    List.Chain' (· ≤ ·) ((mutexRun t nows).map MTakeResult.ret) := by
  induction nows with
  | nil => intro t _; simp [mutexRun]
  | cons n1 rest ih =>
    intro t h
    cases rest with
    | nil => simp [mutexRun]
    | cons n2 rest2 =>
      simp only [mutexValidB, Bool.and_eq_true, decide_eq_true_eq] at h
      obtain ⟨hle, hrest⟩ := h
      simp only [mutexRun, List.map_cons]
      rw [List.chain'_cons]
      constructor
      · have e1 := mutexTake_ret_eq t n1
        have l1 := mutexTake_last_eq t n1
        have e2 := mutexTake_ret_eq (mutexLimiter.Take t n1).state n2
        have l2 := mutexTake_last_eq (mutexLimiter.Take t n1).state n2
        have sn := mutexTake_slept_nonneg (mutexLimiter.Take t n1).state n2
        omega
      · have tail := ih (mutexLimiter.Take t n1).state hrest
        simpa [mutexRun, List.map_cons] using tail

/-- Along any reading trace satisfying the clock assumptions, the
instants committed (and returned) by sequential uncontended atomic Takes
are pairwise non-decreasing. -/
theorem atomicSeqRun_chain (nows : List Int) : ∀ (a : atomicLimiter) (s : state),
    atomicValidB a s nows = true →
    List.Chain' (· ≤ ·) ((atomicSeqRun a s nows).map (fun r => r.1.last)) := by
  induction nows with
  | nil => intro a s _; simp [atomicSeqRun]
  | cons n1 rest ih =>
    intro a s h
    cases rest with
    | nil => simp [atomicSeqRun]
    | cons n2 rest2 =>
      simp only [atomicValidB, Bool.and_eq_true, decide_eq_true_eq] at h
      obtain ⟨hle, hrest⟩ := h
      simp only [atomicSeqRun, List.map_cons]
      rw [List.chain'_cons]
      constructor
      · have l1 := atomicSeqTake_last_eq a s n1
        have l2 := atomicSeqTake_last_eq a (atomicSeqTake a s n1).1 n2
        have sn := atomicSeqTake_slept_nonneg a (atomicSeqTake a s n1).1 n2
        omega
      · have tail := ih a (atomicSeqTake a s n1).1 hrest
        simpa [atomicSeqRun, List.map_cons] using tail

/-- C7: for sequential Take calls on one limiter instance, under the
clock assumptions (readings never decrease, and a reading taken after a
sleep of d is at least the previous reading plus d, which is what the
validity predicates encode), the sequence of returned authorized
timestamps is non-decreasing in both the lock-based and the atomic
strategy.  Since each call returns exactly the lastInstant it commits
(`mutexTake_ret_eq`, and `.1.last` for the atomic strategy), this is
equally the statement that the committed lastInstant never decreases
across the state's history. -/
theorem C7_monotonic_timestamps (t : mutexLimiter) (a : atomicLimiter) (s : state)
    (nows1 nows2 : List Int)
    (h1 : mutexValidB t nows1 = true) (h2 : atomicValidB a s nows2 = true) :
    List.Chain' (· ≤ ·) ((mutexRun t nows1).map MTakeResult.ret)
    ∧ List.Chain' (· ≤ ·) ((atomicSeqRun a s nows2).map (fun r => r.1.last)) :=
  ⟨mutexRun_chain nows1 t h1, atomicSeqRun_chain nows2 a s h2⟩

/-- Witness for C7: a fresh limiter at perRequest 10, maxSlack -100,
with readings 5, 20, 25 (a valid trace for both strategies). -/
theorem C7_monotonic_timestamps_witness :
    List.Chain' (· ≤ ·)
      ((mutexRun ⟨0, 0, 10, -100, ClockRef.real⟩ [5, 20, 25]).map MTakeResult.ret)
    ∧ List.Chain' (· ≤ ·)
      ((atomicSeqRun ⟨10, -100, ClockRef.real⟩ ⟨0, 0⟩ [5, 20, 25]).map
        (fun r => r.1.last)) :=
  C7_monotonic_timestamps ⟨0, 0, 10, -100, ClockRef.real⟩ ⟨10, -100, ClockRef.real⟩
    ⟨0, 0⟩ [5, 20, 25] [5, 20, 25] (by decide) (by decide)

/-! ### Claim C8: burst bound after idleness -/

/-- A non-first lock-based Take whose computed debt is a given
non-positive value `c` above the clamp: no sleep, `last` becomes the
reading and the debt `c` is carried. -/
theorem mutexTake_free_step (t : mutexLimiter) (now c : Int)
    (h0 : t.last ≠ 0) (hms : t.maxSlack ≤ c) (hc : c ≤ 0)
    (heq : t.sleepFor + t.perRequest - (now - t.last) = c) :
    mutexLimiter.Take t now
      = { state := { t with last := now, sleepFor := c }, slept := 0, ret := now } := by
  simp only [mutexLimiter.Take]
  rw [if_neg h0, heq]
  rw [if_neg (show ¬ c < t.maxSlack by omega)]
  rw [if_neg (show ¬ c > 0 by omega)]

/-- A non-first lock-based Take whose computed debt is a given positive
value `d` above the clamp: the call sleeps `d` and commits
`last = now + d` with the debt reset. -/
theorem mutexTake_delayed_step (t : mutexLimiter) (now d : Int)
    (h0 : t.last ≠ 0) (hms : t.maxSlack ≤ d) (hd : 0 < d)
    (heq : t.sleepFor + t.perRequest - (now - t.last) = d) :
    mutexLimiter.Take t now
      = { state := { t with last := now + d, sleepFor := 0 }, slept := d,
          ret := now + d } := by
  simp only [mutexLimiter.Take]
  rw [if_neg h0, heq]
  rw [if_neg (show ¬ d < t.maxSlack by omega)]
  rw [if_pos (show d > 0 by omega)]

/-- A sequential run splits over list append, the second part starting
from the state the first part leaves behind. -/
theorem mutexRun_append (t : mutexLimiter) (l1 l2 : List Int) :
    mutexRun t (l1 ++ l2) = mutexRun t l1 ++ mutexRun (mutexRunState t l1) l2 := by
  induction l1 generalizing t with
  | nil => simp [mutexRun, mutexRunState]
  | cons n rest ih => simp [mutexRun, mutexRunState, List.foldl_cons, ih]

/-- A burst of `m` calls all reading the same instant `now`, starting
from a state already at `last = now` with banked debt `c` that stays
non-positive throughout (`c + m * p ≤ 0`): every call is admitted with
no sleep and the debt simply grows by `p` per call. -/
theorem mutexRun_burst (p ms now : Int) (ck : ClockRef) (hp : 0 < p) (hnow : now ≠ 0) :
    ∀ (m : Nat) (c : Int), ms ≤ c → c + m * p ≤ 0 →
      ((mutexRun ⟨now, c, p, ms, ck⟩ (List.replicate m now)).map MTakeResult.slept
        = List.replicate m 0)
      ∧ mutexRunState ⟨now, c, p, ms, ck⟩ (List.replicate m now)
        = ⟨now, c + m * p, p, ms, ck⟩ := by
  intro m
  induction m with
  | zero =>
    intro c h1 h2
    constructor
    · simp [mutexRun]
    · simp [mutexRunState]
  | succ m ih =>
    intro c h1 h2
    have hm : (0 : Int) ≤ (m : Int) * p := by positivity
    have h2x : c + ((m : Int) * p + p) ≤ 0 := by
      have hexp : ((m : Int) + 1) * p = (m : Int) * p + p := by ring
      push_cast at h2
      rw [hexp] at h2
      exact h2
    have hstep := mutexTake_free_step
      { last := now, sleepFor := c, perRequest := p, maxSlack := ms, clock := ck }
      now (c + p) hnow (by dsimp only; omega) (by omega)
      (by dsimp only; ring)
    obtain ⟨ih1, ih2⟩ := ih (c + p) (by omega) (by omega)
    rw [List.replicate_succ]
    constructor
    · simp only [mutexRun, List.map_cons]
      rw [hstep]
      simp only [List.replicate_succ, List.cons.injEq]
      exact ⟨trivial, ih1⟩
    · simp only [mutexRunState, List.foldl_cons]
      rw [hstep]
      have := ih2
      simp only [mutexRunState] at this
      rw [this]
      have hcast : c + p + (m : Int) * p = c + ((m : Nat) + 1 : Nat) * p := by
        push_cast; ring
      rw [hcast]

/-- C8 counterexample: slack S = 1 at rate 1/second (perRequest one
second, maxSlack minus one second), debt zero, idle gap of exactly two
seconds — which is at least S x (W/R) — before a burst of two calls at
the same instant: the clamp caps the banked credit at one second, the
first call is free, and the (S+1)-th call has debt exactly zero, so it
too is admitted with no delay, contrary to the claim that the (S+1)-th
call after an idle period of at least S x (W/R) is delayed. -/
theorem C8_counterexample_long_idle :
    ((mutexRun ⟨5000000000, 0, 1000000000, -1000000000, ClockRef.real⟩
        [7000000000, 7000000000]).map MTakeResult.slept) = [0, 0] := by
  decide

/-- C8 amended: the burst bound holds when the idle gap g is at least
S x (W/R) but strictly less than (S+1) x (W/R) (for g beyond that the
clamp leaves the (S+1)-th call with non-positive debt and it is admitted
free as well, as the counterexample shows): past its first call with no
carried debt, a limiter with slack S sees the next S simultaneous calls
admitted with no sleep and the (S+1)-th call delayed by exactly
(S+1) x (W/R) - g.  The concrete scenario stands as claimed: at rate
1/second with slack 1, calls issued at t=0, 2.000000001s, 2.000000002s,
2.000000003s and 2.000000004s (base instant 1000ns) are authorized at
0, 2.000000001, 2.000000002, 3.000000001 and 4.000000001 seconds, so 3
are admitted by t=3s and 5 by t=10s. -/
theorem C8_amended_burst_bound (S : Nat) (p g last0 : Int) (ck : ClockRef)
    (hS : 1 ≤ S) (hp : 0 < p) (hlast : 0 < last0)
    (hg1 : (S : Int) * p ≤ g) (hg2 : g < ((S : Int) + 1) * p) :
    ((mutexRun ⟨last0, 0, p, -(S : Int) * p, ck⟩
        (List.replicate (S + 1) (last0 + g))).map MTakeResult.slept
      = List.replicate S 0 ++ [((S : Int) + 1) * p - g])
    ∧ 0 < ((S : Int) + 1) * p - g
    ∧ ((mutexSerialRun ⟨0, 0, 1000000000, -1000000000, ClockRef.real⟩
        [1000, 2000001001, 2000001002, 2000001003, 2000001004]).map MTakeResult.ret
      = [1000, 2000001001, 2000001002, 3000001001, 4000001001])
    ∧ (((mutexSerialRun ⟨0, 0, 1000000000, -1000000000, ClockRef.real⟩
        [1000, 2000001001, 2000001002, 2000001003, 2000001004]).map
          MTakeResult.ret).countP (fun x => decide (x ≤ 1000 + 3000000000)) = 3)
    ∧ (((mutexSerialRun ⟨0, 0, 1000000000, -1000000000, ClockRef.real⟩
        [1000, 2000001001, 2000001002, 2000001003, 2000001004]).map
          MTakeResult.ret).countP (fun x => decide (x ≤ 1000 + 10000000000)) = 5) := by
  obtain ⟨m, rfl⟩ : ∃ m, S = m + 1 := ⟨S - 1, by omega⟩
  push_cast at hg1 hg2 ⊢
  have hmp : (0 : Int) ≤ (m : Int) * p := by positivity
  have hg1x : (m : Int) * p + p ≤ g := by nlinarith
  have hg2x : g < (m : Int) * p + 2 * p := by nlinarith
  have hnow : last0 + g ≠ 0 := by nlinarith
  refine ⟨?_, by nlinarith, by decide, by decide, by decide⟩
  have h1 : mutexLimiter.Take ⟨last0, 0, p, -((m : Int) + 1) * p, ck⟩ (last0 + g)
      = { state := ⟨last0 + g, p - g, p, -((m : Int) + 1) * p, ck⟩, slept := 0,
          ret := last0 + g } :=
    mutexTake_free_step _ _ (p - g) (by dsimp only; omega)
      (by dsimp only; nlinarith) (by nlinarith) (by dsimp only; ring)
  obtain ⟨hb1, hb2⟩ := mutexRun_burst p (-((m : Int) + 1) * p) (last0 + g) ck hp hnow
    m (p - g) (by nlinarith) (by nlinarith)
  have h3 : mutexLimiter.Take ⟨last0 + g, p - g + (m : Int) * p, p,
        -((m : Int) + 1) * p, ck⟩ (last0 + g)
      = { state := ⟨last0 + g + ((m : Int) + 1 + 1) * p - g, 0, p,
            -((m : Int) + 1) * p, ck⟩, slept := ((m : Int) + 1 + 1) * p - g,
          ret := last0 + g + (((m : Int) + 1 + 1) * p - g) } := by
    have := mutexTake_delayed_step ⟨last0 + g, p - g + (m : Int) * p, p,
        -((m : Int) + 1) * p, ck⟩ (last0 + g) (((m : Int) + 1 + 1) * p - g)
      hnow (by dsimp only; nlinarith) (by nlinarith) (by dsimp only; ring)
    rw [this]
    have harith : last0 + g + (((m : Int) + 1 + 1) * p - g)
        = last0 + g + ((m : Int) + 1 + 1) * p - g := by ring
    rw [harith]
  rw [List.replicate_succ, List.replicate_succ']
  simp only [mutexRun, List.map_cons]
  rw [h1]
  simp only [mutexRun_append, List.map_append]
  rw [hb1, hb2, List.replicate_succ]
  simp only [mutexRun, List.map_cons, List.map_nil]
  rw [h3]
  simp only [List.cons_append, List.nil_append, List.replicate_succ]

/-- Witness for C8 amended at slack 1, perRequest one second, idle gap
1.5 seconds from lastInstant five seconds: the burst of two calls sleeps
[0, 0.5s]. -/
theorem C8_amended_burst_bound_witness :
    ((mutexRun ⟨5000000000, 0, 1000000000, -((1 : Nat) : Int) * 1000000000,
        ClockRef.real⟩
        (List.replicate (1 + 1) (5000000000 + 1500000000))).map MTakeResult.slept
      = List.replicate 1 0 ++ [(((1 : Nat) : Int) + 1) * 1000000000 - 1500000000])
    ∧ 0 < (((1 : Nat) : Int) + 1) * 1000000000 - 1500000000
    ∧ ((mutexSerialRun ⟨0, 0, 1000000000, -1000000000, ClockRef.real⟩
        [1000, 2000001001, 2000001002, 2000001003, 2000001004]).map MTakeResult.ret
      = [1000, 2000001001, 2000001002, 3000001001, 4000001001])
    ∧ (((mutexSerialRun ⟨0, 0, 1000000000, -1000000000, ClockRef.real⟩
        [1000, 2000001001, 2000001002, 2000001003, 2000001004]).map
          MTakeResult.ret).countP (fun x => decide (x ≤ 1000 + 3000000000)) = 3)
    ∧ (((mutexSerialRun ⟨0, 0, 1000000000, -1000000000, ClockRef.real⟩
        [1000, 2000001001, 2000001002, 2000001003, 2000001004]).map
          MTakeResult.ret).countP (fun x => decide (x ≤ 1000 + 10000000000)) = 5) :=
  C8_amended_burst_bound 1 1000000000 1500000000 5000000000 ClockRef.real
    (by decide) (by decide) (by decide) (by decide) (by decide)
